import Mathlib

/-
Verification of the spherical U-Net encoder core of deepsphere-pytorch
(files `deepsphere/models/spherical_unet/utils.py` and
`deepsphere/models/spherical_unet/encoder.py`).

The Python modules are shallowly embedded as Lean structures: each
`nn.Module`'s `__init__` becomes an `init` function returning
`Except PyErr M` (Python `assert` failures and `IndexError`s become
`.error` results), and each `forward` becomes a Lean function.  The two
external library layers used by the core — `torch_geometric.nn.ChebConv`
and `torch.nn.BatchNorm1d` — are not part of this repository:
`ChebConv`'s numeric forward pass is an abstract semantics parameter
(`ChebSem`), while `BatchNorm1d`'s training-mode forward is modelled from
its documented semantics over exact rationals, with the reciprocal square
root as an abstract numeric primitive.  Tensors carry their shape
explicitly together with a flat (row-major) data list, mirroring
`torch.Tensor.view`, which only re-interprets the shape.
-/

set_option autoImplicit false

namespace DeepSphere

/-- Errors raised by the Python construction code: `assert` raises
`AssertionError` (with an optional message), out-of-range list indexing raises
`IndexError`.  `ConfigurationError` is the dedicated exception type named by
the design documents for construction-time misconfiguration; it is included
here so that theorems can state which exception the code actually raises. -/
inductive PyErr where
  | assertionError (msg : Option String)
  | indexError
  | configurationError (msg : String)
  deriving Repr, DecidableEq

/-- The string literal passed as `laplacian_type` for the symmetric-normalized
Laplacian. -/
def normalizedStr : String := "normalized"

/-- The string literal passed as `laplacian_type` for the combinatorial
(unnormalized) Laplacian. -/
def combinatorialStr : String := "combinatorial"

/-- The `normalization='sym'` setting handed to the external `ChebConv`. -/
def symStr : String := "sym"

/-- The message of the `assert` in `SphericalChebConv.__init__`
(`utils.py` line 13). -/
def invalidNormalizationMsg : String := "Invalid normalization"

/-- Python list indexing `l[i]`: a negative index counts from the end
(`l[-1]` is the last element); an index out of range raises `IndexError`. -/
def pyIndex {γ : Type} (l : List γ) (i : Int) : Except PyErr γ :=
  let j : Int := if i < 0 then i + l.length else i
  if h : 0 ≤ j ∧ j.toNat < l.length then .ok (l.get ⟨j.toNat, h.2⟩)
  else .error .indexError

/-- Configuration of the external `torch_geometric.nn.ChebConv` layer as
constructed at `utils.py` lines 22-23: channel widths, Chebyshev polynomial
order `K`, and the Laplacian normalization setting (`some "sym"` when
`laplacian_type == 'normalized'`, `none` otherwise).  The layer's numeric
forward pass belongs to the external library and is abstracted by `ChebSem`
below. -/
structure ChebConvCfg where
  in_channels : Nat
  out_channels : Nat
  K : Nat
  normalization : Option String
  deriving Repr, DecidableEq

/-- The `SphericalChebConv` module of `utils.py` (lines 9-39): registered
buffers `edge_index`, optional `edge_weight`, the `lambda_max` buffer, and the
wrapped `ChebConv` layer.  `EI` is the type of the edge-index data and `EW`
the type of the edge-weight data, both opaque to the core. -/
structure SphericalChebConv (EI EW : Type) where
  edge_index : EI
  edge_weight : Option EW
  lambda_max : ℚ
  chebconv : ChebConvCfg
  deriving Repr, DecidableEq

/-- Embedding of `SphericalChebConv.__init__` (`utils.py` lines 10-23): the
`assert laplacian_type in ['normalized', 'combinatorial']` check, the buffer
registrations (`lambda_max` is the constant tensor `2.`), and the `ChebConv`
construction with `normalization='sym'` exactly when
`laplacian_type == 'normalized'`. -/
def SphericalChebConv.init {EI EW : Type} (in_channels out_channels kernel_size : Nat)
    (edge_index : EI) (edge_weight : Option EW) (laplacian_type : String) :
    Except PyErr (SphericalChebConv EI EW) :=
  if laplacian_type = normalizedStr ∨ laplacian_type = combinatorialStr then
    .ok { edge_index := edge_index
          edge_weight := edge_weight
          lambda_max := 2
          chebconv := { in_channels := in_channels
                        out_channels := out_channels
                        K := kernel_size
                        normalization := if laplacian_type = normalizedStr
                                         then some symStr else none } }
  else .error (.assertionError (some invalidNormalizationMsg))

/-- The `lambda_max` value that `SphericalChebConv.forward` passes to the
Chebyshev convolution on every call (`utils.py` line 38): the registered
`lambda_max` buffer. -/
def SphericalChebConv.forwardLambdaMax {EI EW : Type} (m : SphericalChebConv EI EW) : ℚ :=
  m.lambda_max

/-- Shape of a 3-dimensional feature tensor `[batch x nodes x channels]`. -/
structure Shape3 where
  batch : Nat
  nodes : Nat
  channels : Nat
  deriving Repr, DecidableEq

/-- A 3-dimensional feature tensor `[batch x nodes x channels]` with row-major
flat data, entries as exact rationals. -/
structure T3 where
  batch : Nat
  nodes : Nat
  channels : Nat
  data : List ℚ
  deriving Repr, DecidableEq

/-- A 2-dimensional tensor `[rows x cols]` with row-major flat data, as
produced by `x.view(-1, x.shape[-1])`. -/
structure T2 where
  rows : Nat
  cols : Nat
  data : List ℚ
  deriving Repr, DecidableEq

/-- Shape semantics of the external `ChebConv` layer: the node and batch
dimensions are preserved and the channel dimension must match `in_channels`
and becomes `out_channels` (a channel-width mismatch is a runtime shape
error, modelled as `none`). -/
def ChebConvCfg.shapeForward (cfg : ChebConvCfg) (s : Shape3) : Option Shape3 :=
  if s.channels = cfg.in_channels then some { s with channels := cfg.out_channels }
  else none

/-- Shape semantics of `SphericalChebConv.forward`: the wrapped `ChebConv`
applied to the input. -/
def SphericalChebConv.shapeForward {EI EW : Type} (m : SphericalChebConv EI EW)
    (s : Shape3) : Option Shape3 :=
  m.chebconv.shapeForward s

/-- Value-level semantics of the external `ChebConv` layer: given the layer
configuration and the arguments `SphericalChebConv.forward` passes at
`utils.py` line 38 — `edge_index`, `edge_weight`, `lambda_max` — map an input
tensor to an output tensor (or a runtime error, `none`).  This is library
code outside the repository, so it is kept abstract. -/
def ChebSem (EI EW : Type) : Type :=
  ChebConvCfg → EI → Option EW → ℚ → T3 → Option T3

/-- Embedding of `SphericalChebConv.forward` (`utils.py` line 38):
`self.chebconv(x, self.edge_index, self.edge_weight, lambda_max=self.lambda_max)`. -/
def SphericalChebConv.forward {EI EW : Type} (sem : ChebSem EI EW)
    (m : SphericalChebConv EI EW) (x : T3) : Option T3 :=
  sem m.chebconv m.edge_index m.edge_weight m.lambda_max x

/-- Configuration of the external `torch.nn.BatchNorm1d` layer as constructed
at `utils.py` line 57: number of features, numeric-stability constant `eps`
(PyTorch default `1e-5`), and whether a learnable affine rescale is attached
(`affine=False` in this repository). -/
structure BatchNorm1dCfg where
  num_features : Nat
  eps : ℚ
  affine : Bool
  deriving Repr, DecidableEq

/-- The entries of feature column `c` of a row-major 2-dimensional tensor. -/
def column (cols c : Nat) (data : List ℚ) : List ℚ :=
  (data.enum.filter (fun p => p.1 % cols == c)).map (fun p => p.2)

/-- Training-mode forward of `torch.nn.BatchNorm1d` on a 2-dimensional input
(external library, modelled from its documented semantics): each feature
column is translated by its batch mean and divided by the square root of its
biased batch variance plus `eps`; the reciprocal square root is the abstract
numeric primitive `rsqrt`.  No affine rescale is applied, as the layer here
is always constructed with `affine=False`.  An input whose feature dimension
does not match `num_features` is a runtime error (`none`). -/
def BatchNorm1dCfg.forward (cfg : BatchNorm1dCfg) (rsqrt : ℚ → ℚ) (t : T2) : Option T2 :=
  if t.cols = cfg.num_features then
    let mean : Nat → ℚ := fun c => (column t.cols c t.data).sum / (t.rows : ℚ)
    let var : Nat → ℚ := fun c =>
      (((column t.cols c t.data).map (fun v => (v - mean c) ^ 2)).sum) / (t.rows : ℚ)
    let norm : Nat × ℚ → ℚ := fun p =>
      (p.2 - mean (p.1 % t.cols)) * rsqrt (var (p.1 % t.cols) + cfg.eps)
    some { t with data := t.data.enum.map norm }
  else none

/-- The rectified linear unit `x.relu()`: negative entries are clipped to
zero. -/
def relu (q : ℚ) : ℚ := max 0 q

/-- The `SphericalChebBN` module of `utils.py` (lines 42-70): a Chebyshev
convolution followed by batch normalization and a ReLU activation. -/
structure SphericalChebBN (EI EW : Type) where
  spherical_cheb : SphericalChebConv EI EW
  batchnorm : BatchNorm1dCfg
  deriving Repr, DecidableEq

/-- Embedding of `SphericalChebBN.__init__` (`utils.py` lines 46-57): builds
the `SphericalChebConv` and a `BatchNorm1d(out_channels, affine=False)`. -/
def SphericalChebBN.init {EI EW : Type} (in_channels out_channels kernel_size : Nat)
    (edge_index : EI) (edge_weight : Option EW) (laplacian_type : String) :
    Except PyErr (SphericalChebBN EI EW) := do
  let conv ← SphericalChebConv.init in_channels out_channels kernel_size
    edge_index edge_weight laplacian_type
  .ok { spherical_cheb := conv
        batchnorm := { num_features := out_channels, eps := 1 / 100000, affine := false } }

/-- Embedding of `SphericalChebBN.forward` (`utils.py` lines 59-70):
`x = self.spherical_cheb(x)` followed by
`x = self.batchnorm(x.view(-1, x.shape[-1])).relu().view(*x.shape)`.
The `view(-1, C)` collapses the batch and node dimensions into the row
dimension; the final `view(*x.shape)` restores the convolution output's
3-dimensional shape (on the flat representation both views leave the data
in place). -/
def SphericalChebBN.forward {EI EW : Type} (sem : ChebSem EI EW) (rsqrt : ℚ → ℚ)
    (m : SphericalChebBN EI EW) (x : T3) : Option T3 := do
  let x1 ← m.spherical_cheb.forward sem x
  let bn ← m.batchnorm.forward rsqrt
    { rows := x1.batch * x1.nodes, cols := x1.channels, data := x1.data }
  some { batch := x1.batch, nodes := x1.nodes, channels := x1.channels
         data := bn.data.map relu }

/-- Shape semantics of `SphericalChebBN.forward`: the convolution changes the
channel width, which must match the batch-norm's feature count; the
batch-norm and ReLU preserve the shape. -/
def SphericalChebBN.shapeForward {EI EW : Type} (m : SphericalChebBN EI EW)
    (s : Shape3) : Option Shape3 := do
  let s1 ← m.spherical_cheb.shapeForward s
  if s1.channels = m.batchnorm.num_features then some s1 else none

/-- The `SphericalChebBNPool` module of `utils.py` (lines 73-102): a pooling
(or unpooling) operator followed by a `SphericalChebBN` block.  `P` is the
type of the pooling module, supplied externally. -/
structure SphericalChebBNPool (EI EW P : Type) where
  pooling : P
  spherical_cheb_bn : SphericalChebBN EI EW

/-- Embedding of `SphericalChebBNPool.__init__` (`utils.py` lines 77-89). -/
def SphericalChebBNPool.init {EI EW P : Type} (in_channels out_channels : Nat)
    (pooling : P) (kernel_size : Nat) (edge_index : EI) (edge_weight : Option EW)
    (laplacian_type : String) : Except PyErr (SphericalChebBNPool EI EW P) := do
  let bn ← SphericalChebBN.init in_channels out_channels kernel_size
    edge_index edge_weight laplacian_type
  .ok { pooling := pooling, spherical_cheb_bn := bn }

/-- Embedding of `SphericalChebBNPool.forward` (`utils.py` lines 91-102):
`x = self.pooling(x)` followed by `x = self.spherical_cheb_bn(x)`. -/
def SphericalChebBNPool.forward {EI EW : Type} (sem : ChebSem EI EW) (rsqrt : ℚ → ℚ)
    (m : SphericalChebBNPool EI EW (T3 → T3)) (x : T3) : Option T3 :=
  m.spherical_cheb_bn.forward sem rsqrt (m.pooling x)

/-- Shape semantics of `SphericalChebBNPool.forward` when the pooling module
is abstracted by its action on the node count. -/
def SphericalChebBNPool.shapeForward {EI EW : Type}
    (m : SphericalChebBNPool EI EW (Nat → Nat)) (s : Shape3) : Option Shape3 :=
  m.spherical_cheb_bn.shapeForward { s with nodes := m.pooling s.nodes }

/-- The `SphericalChebPool` module of `encoder.py` (lines 43-73): a pooling
operator followed by a bare `SphericalChebConv`, with no batch normalization
and no activation. -/
structure SphericalChebPool (EI EW P : Type) where
  pooling : P
  spherical_cheb : SphericalChebConv EI EW

/-- Embedding of `SphericalChebPool.__init__` (`encoder.py` lines 47-60). -/
def SphericalChebPool.init {EI EW P : Type} (in_channels out_channels : Nat)
    (pooling : P) (kernel_size : Nat) (edge_index : EI) (edge_weight : Option EW)
    (laplacian_type : String) : Except PyErr (SphericalChebPool EI EW P) := do
  let conv ← SphericalChebConv.init in_channels out_channels kernel_size
    edge_index edge_weight laplacian_type
  .ok { pooling := pooling, spherical_cheb := conv }

/-- Embedding of `SphericalChebPool.forward` (`encoder.py` lines 62-73):
`x = self.pooling(x)` followed by `x = self.spherical_cheb(x)`. -/
def SphericalChebPool.forward {EI EW : Type} (sem : ChebSem EI EW)
    (m : SphericalChebPool EI EW (T3 → T3)) (x : T3) : Option T3 :=
  m.spherical_cheb.forward sem (m.pooling x)

/-- Shape semantics of `SphericalChebPool.forward` when the pooling module is
abstracted by its action on the node count. -/
def SphericalChebPool.shapeForward {EI EW : Type}
    (m : SphericalChebPool EI EW (Nat → Nat)) (s : Shape3) : Option Shape3 :=
  m.spherical_cheb.shapeForward { s with nodes := m.pooling s.nodes }

/-- The `SphericalChebBN2` module of `encoder.py` (lines 8-40): two stacked
convolution+batch-norm+activation blocks, exposing its input and output
channel widths. -/
structure SphericalChebBN2 (EI EW : Type) where
  in_channels : Nat
  out_channels : Nat
  spherical_cheb_bn_1 : SphericalChebBN EI EW
  spherical_cheb_bn_2 : SphericalChebBN EI EW
  deriving Repr, DecidableEq

/-- Embedding of `SphericalChebBN2.__init__` (`encoder.py` lines 12-27): the
first block maps `in_channels` to `middle_channels`, the second block maps
`middle_channels` to `out_channels`, both over the same graph keyword
arguments. -/
def SphericalChebBN2.init {EI EW : Type}
    (in_channels middle_channels out_channels kernel_size : Nat)
    (edge_index : EI) (edge_weight : Option EW) (laplacian_type : String) :
    Except PyErr (SphericalChebBN2 EI EW) := do
  let bn1 ← SphericalChebBN.init in_channels middle_channels kernel_size
    edge_index edge_weight laplacian_type
  let bn2 ← SphericalChebBN.init middle_channels out_channels kernel_size
    edge_index edge_weight laplacian_type
  .ok { in_channels := in_channels, out_channels := out_channels
        spherical_cheb_bn_1 := bn1, spherical_cheb_bn_2 := bn2 }

/-- Embedding of `SphericalChebBN2.forward` (`encoder.py` lines 29-40). -/
def SphericalChebBN2.forward {EI EW : Type} (sem : ChebSem EI EW) (rsqrt : ℚ → ℚ)
    (m : SphericalChebBN2 EI EW) (x : T3) : Option T3 := do
  let x1 ← m.spherical_cheb_bn_1.forward sem rsqrt x
  m.spherical_cheb_bn_2.forward sem rsqrt x1

/-- Shape semantics of `SphericalChebBN2.forward`. -/
def SphericalChebBN2.shapeForward {EI EW : Type} (m : SphericalChebBN2 EI EW)
    (s : Shape3) : Option Shape3 := do
  let s1 ← m.spherical_cheb_bn_1.shapeForward s
  m.spherical_cheb_bn_2.shapeForward s1

/-- The `Encoder` module of `encoder.py` (lines 76-132): six stages, `enc_l5`
at the finest mesh level down to `enc_l0` at the most-coarsened one. -/
structure Encoder (EI EW P : Type) where
  pooling : P
  kernel_size : Nat
  enc_l5 : SphericalChebBN2 EI EW
  enc_l4 : SphericalChebBNPool EI EW P
  enc_l3 : SphericalChebBNPool EI EW P
  enc_l2 : SphericalChebBNPool EI EW P
  enc_l1 : SphericalChebBNPool EI EW P
  enc_l0 : SphericalChebPool EI EW P

/-- Embedding of `Encoder.__init__` (`encoder.py` lines 80-114): the chained
`assert len(edge_index_list) == len(edge_weight_list) == 6` (a bare `assert`,
message-less), then the six stages with channel widths 16-32-64 at level 5,
64-128 at level 4, 128-256 at level 3, 256-512 at level 2, 512-512 at level 1
and 512-512 at level 0, each stage built over the graph data at its own list
index. -/
def Encoder.init {EI EW P : Type} (pooling : P) (kernel_size : Nat)
    (edge_index_list : List EI) (edge_weight_list : List (Option EW))
    (laplacian_type : String) : Except PyErr (Encoder EI EW P) :=
  if edge_index_list.length = edge_weight_list.length ∧ edge_weight_list.length = 6 then do
    let e5 ← pyIndex edge_index_list 5
    let w5 ← pyIndex edge_weight_list 5
    let enc_l5 ← SphericalChebBN2.init 16 32 64 kernel_size e5 w5 laplacian_type
    let e4 ← pyIndex edge_index_list 4
    let w4 ← pyIndex edge_weight_list 4
    let enc_l4 ← SphericalChebBNPool.init 64 128 pooling kernel_size e4 w4 laplacian_type
    let e3 ← pyIndex edge_index_list 3
    let w3 ← pyIndex edge_weight_list 3
    let enc_l3 ← SphericalChebBNPool.init 128 256 pooling kernel_size e3 w3 laplacian_type
    let e2 ← pyIndex edge_index_list 2
    let w2 ← pyIndex edge_weight_list 2
    let enc_l2 ← SphericalChebBNPool.init 256 512 pooling kernel_size e2 w2 laplacian_type
    let e1 ← pyIndex edge_index_list 1
    let w1 ← pyIndex edge_weight_list 1
    let enc_l1 ← SphericalChebBNPool.init 512 512 pooling kernel_size e1 w1 laplacian_type
    let e0 ← pyIndex edge_index_list 0
    let w0 ← pyIndex edge_weight_list 0
    let enc_l0 ← SphericalChebPool.init 512 512 pooling kernel_size e0 w0 laplacian_type
    .ok { pooling := pooling, kernel_size := kernel_size
          enc_l5 := enc_l5, enc_l4 := enc_l4, enc_l3 := enc_l3
          enc_l2 := enc_l2, enc_l1 := enc_l1, enc_l0 := enc_l0 }
  else .error (.assertionError none)

/-- Shape semantics of `Encoder.forward` (`encoder.py` lines 116-132): the six
stages applied strictly in sequence, level 5 down to level 0, returning the
5-tuple `(x_enc0, x_enc1, x_enc2, x_enc3, x_enc4)` — the level-5 stage output
`x_enc5` is consumed by the level-4 stage but not part of the returned
tuple. -/
def Encoder.forwardShape {EI EW : Type} (enc : Encoder EI EW (Nat → Nat)) (x : Shape3) :
    Option (Shape3 × Shape3 × Shape3 × Shape3 × Shape3) := do
  let x_enc5 ← enc.enc_l5.shapeForward x
  let x_enc4 ← enc.enc_l4.shapeForward x_enc5
  let x_enc3 ← enc.enc_l3.shapeForward x_enc4
  let x_enc2 ← enc.enc_l2.shapeForward x_enc3
  let x_enc1 ← enc.enc_l1.shapeForward x_enc2
  let x_enc0 ← enc.enc_l0.shapeForward x_enc1
  some (x_enc0, x_enc1, x_enc2, x_enc3, x_enc4)

/-- The `EncoderTemporalConv` module of `encoder.py` (lines 135-158): an
`Encoder` whose level-5 stage has been replaced, plus the stored
`sequence_length`. -/
structure EncoderTemporalConv (EI EW P : Type) extends Encoder EI EW P where
  sequence_length : Nat

/-- Embedding of `EncoderTemporalConv.__init__` (`encoder.py` lines 139-158):
`super().__init__` builds the plain `Encoder`, then `self.enc_l5` is replaced
by a `SphericalChebBN2` whose input and middle channel widths are both
`self.enc_l5.in_channels * self.sequence_length`, whose output width is
`self.enc_l5.out_channels`, and whose graph data is
`kwargs['edge_index_list'][-1]` and `kwargs['edge_weight_list'][-1]`. -/
def EncoderTemporalConv.init {EI EW P : Type} (pooling : P)
    (sequence_length kernel_size : Nat) (edge_index_list : List EI)
    (edge_weight_list : List (Option EW)) (laplacian_type : String) :
    Except PyErr (EncoderTemporalConv EI EW P) := do
  let base ← Encoder.init pooling kernel_size edge_index_list edge_weight_list laplacian_type
  let e ← pyIndex edge_index_list (-1)
  let w ← pyIndex edge_weight_list (-1)
  let new_l5 ← SphericalChebBN2.init (base.enc_l5.in_channels * sequence_length)
    (base.enc_l5.in_channels * sequence_length) base.enc_l5.out_channels kernel_size
    e w laplacian_type
  .ok { toEncoder := { base with enc_l5 := new_l5 }, sequence_length := sequence_length }

/-
Helper lemmas shared by the claim theorems.
-/

theorem exceptBind_ok {ε α β : Type} (a : α) (f : α → Except ε β) :
    (do let x ← Except.ok a; f x : Except ε β) = f a := rfl

theorem exceptBind_error {ε α β : Type} (e : ε) (f : α → Except ε β) :
    (do let x ← Except.error e; f x : Except ε β) = Except.error e := rfl

theorem optionBind_some {α β : Type} (a : α) (f : α → Option β) :
    (do let x ← some a; f x : Option β) = f a := rfl

theorem optionBind_none {α β : Type} (f : α → Option β) :
    (do let x ← (none : Option α); f x : Option β) = none := rfl

theorem list_length_six {γ : Type} (l : List γ) (h : l.length = 6) :
    ∃ b0 b1 b2 b3 b4 b5, l = [b0, b1, b2, b3, b4, b5] := by
  match l, h with
  | [b0, b1, b2, b3, b4, b5], _ => exact ⟨b0, b1, b2, b3, b4, b5, rfl⟩

/-- Inversion of `SphericalChebConv.init`: a successful construction pins
every field of the module. -/
theorem SphericalChebConv.init_ok {EI EW : Type} {ic oc k : Nat} {ei : EI}
    {ew : Option EW} {lt : String} {m : SphericalChebConv EI EW}
    (hm : SphericalChebConv.init ic oc k ei ew lt = .ok m) :
    m = { edge_index := ei, edge_weight := ew, lambda_max := 2
          chebconv := { in_channels := ic, out_channels := oc, K := k
                        normalization := if lt = normalizedStr then some symStr
                                         else none } } := by
  unfold SphericalChebConv.init at hm
  split at hm
  · exact (Except.ok.inj hm).symm
  · exact absurd hm (fun hh => Except.noConfusion hh)

/-- With an invalid `laplacian_type`, `Encoder.__init__` passes its length
assert but fails inside the first block construction with the
`SphericalChebConv` assert. -/
theorem encoder_init_invalid_lt {EI EW P : Type} (p : P) (k : Nat)
    (a0 a1 a2 a3 a4 a5 : EI) (w0 w1 w2 w3 w4 w5 : Option EW) (lt : String)
    (hlt : ¬(lt = normalizedStr ∨ lt = combinatorialStr)) :
    Encoder.init p k [a0, a1, a2, a3, a4, a5] [w0, w1, w2, w3, w4, w5] lt
      = .error (.assertionError (some invalidNormalizationMsg)) := by
  simp only [Encoder.init, SphericalChebBN2.init, SphericalChebBN.init,
    SphericalChebConv.init, SphericalChebBNPool.init, SphericalChebPool.init,
    pyIndex, List.length_cons, List.length_nil, if_neg hlt,
    exceptBind_ok, exceptBind_error]
  rfl

/-- C5 counterexample: the claim says the `normalized` and `combinatorial`
modes yield different bounding constants for the Chebyshev convolution, but
two `SphericalChebConv`s constructed identically except for the mode supply
the very same `lambda_max` value at every forward pass. -/
theorem lambda_max_mode_cex :
    ∃ m1 m2 : SphericalChebConv ℕ ℕ,
      SphericalChebConv.init 16 32 3 0 none normalizedStr = .ok m1 ∧
      SphericalChebConv.init 16 32 3 0 none combinatorialStr = .ok m2 ∧
      m1.forwardLambdaMax = m2.forwardLambdaMax :=
  ⟨_, _, rfl, rfl, rfl⟩

/-- C5 (amended): the spectral-radius bound supplied to the Chebyshev
convolution at each forward pass is the constant `2` regardless of the
spectral normalization mode; the mode only selects the `ChebConv`
normalization setting (`'sym'` for `normalized`, `None` for
`combinatorial`). -/
theorem lambda_max_constant {EI EW : Type} {ic oc k : Nat} {ei : EI}
    {ew : Option EW} {lt : String} {m : SphericalChebConv EI EW}
    (hm : SphericalChebConv.init ic oc k ei ew lt = .ok m) :
    m.forwardLambdaMax = 2 ∧
      (lt = normalizedStr → m.chebconv.normalization = some symStr) ∧
      (lt = combinatorialStr → m.chebconv.normalization = none) := by
  have h := SphericalChebConv.init_ok hm
  subst h
  refine ⟨rfl, fun h => ?_, fun h => ?_⟩
  · show (if lt = normalizedStr then some symStr else none) = some symStr
    rw [if_pos h]
  · show (if lt = normalizedStr then some symStr else none) = none
    subst h
    rw [if_neg (by decide)]

/-- C5 witness: `lambda_max_constant` applied to a concrete construction. -/
theorem lambda_max_constant_witness :
    SphericalChebConv.init 16 32 3 (0 : ℕ) (none : Option ℕ) normalizedStr
        = .ok ⟨0, none, 2, ⟨16, 32, 3, some symStr⟩⟩ ∧
      (⟨0, none, 2, ⟨16, 32, 3, some symStr⟩⟩ : SphericalChebConv ℕ ℕ).forwardLambdaMax = 2 :=
  ⟨rfl,
   (lambda_max_constant
     (show SphericalChebConv.init 16 32 3 (0 : ℕ) (none : Option ℕ) normalizedStr
         = .ok ⟨0, none, 2, ⟨16, 32, 3, some symStr⟩⟩ from rfl)).1⟩

/-- C8: constructing `SphericalChebConv` succeeds exactly when
`laplacian_type` is one of `normalized` and `combinatorial`; any other value
is rejected by an error raised at construction time. -/
theorem chebconv_laplacian_type_check {EI EW : Type} (ic oc k : Nat) (ei : EI)
    (ew : Option EW) (lt : String) :
    (∃ m : SphericalChebConv EI EW, SphericalChebConv.init ic oc k ei ew lt = .ok m) ↔
      (lt = normalizedStr ∨ lt = combinatorialStr) := by
  unfold SphericalChebConv.init
  by_cases h : lt = normalizedStr ∨ lt = combinatorialStr
  · rw [if_pos h]
    exact ⟨fun _ => h, fun _ => ⟨_, rfl⟩⟩
  · rw [if_neg h]
    constructor
    · rintro ⟨m, hm⟩
      exact absurd hm (fun hh => Except.noConfusion hh)
    · intro hh
      exact absurd hh h

/-- C10: both construction-time validations are plain `assert` statements
raising `AssertionError`, never the dedicated `ConfigurationError`: every
construction failure of `SphericalChebConv` is the `AssertionError` with the
message of line 13 of `utils.py`, every construction failure of `Encoder` is
one of the two `AssertionError`s, the message-less length assert of
`encoder.py` line 88 fires exactly when the chained condition
`len(edge_index_list) == len(edge_weight_list) == 6` fails, and no other
construction-time validation exists — in particular any `kernel_size`
(including `0`) is accepted. -/
theorem assert_based_validation :
    (∀ (EI EW : Type) (ic oc k : Nat) (ei : EI) (ew : Option EW) (lt : String) (e : PyErr),
        SphericalChebConv.init ic oc k ei ew lt = .error e →
          e = .assertionError (some invalidNormalizationMsg)) ∧
    (∀ (EI EW P : Type) (p : P) (k : Nat) (eil : List EI) (ewl : List (Option EW))
        (lt : String) (e : PyErr),
        Encoder.init p k eil ewl lt = .error e →
          e = .assertionError none ∨ e = .assertionError (some invalidNormalizationMsg)) ∧
    (∀ (EI EW P : Type) (p : P) (k : Nat) (eil : List EI) (ewl : List (Option EW))
        (lt : String),
        eil.length = ewl.length → ewl.length = 6 →
          Encoder.init p k eil ewl lt ≠ .error (.assertionError none)) ∧
    (∀ (EI EW P : Type) (p : P) (eil : List EI) (ewl : List (Option EW)) (lt : String),
        eil.length = 6 → ewl.length = 6 →
          (lt = normalizedStr ∨ lt = combinatorialStr) →
          ∀ k : Nat, ∃ enc : Encoder EI EW P, Encoder.init p k eil ewl lt = .ok enc) := by
  refine ⟨?_, ?_, ?_, ?_⟩
  · intro EI EW ic oc k ei ew lt e h
    unfold SphericalChebConv.init at h
    split at h
    · exact absurd h (fun hh => Except.noConfusion hh)
    · exact (Except.error.inj h).symm
  · intro EI EW P p k eil ewl lt e h
    by_cases hcond : eil.length = ewl.length ∧ ewl.length = 6
    · obtain ⟨hlen, h6⟩ := hcond
      obtain ⟨a0, a1, a2, a3, a4, a5, rfl⟩ := list_length_six eil (hlen.trans h6)
      obtain ⟨w0, w1, w2, w3, w4, w5, rfl⟩ := list_length_six ewl h6
      by_cases hlt : lt = normalizedStr ∨ lt = combinatorialStr
      · rcases hlt with rfl | rfl
        · obtain ⟨enc, hok⟩ : ∃ enc : Encoder EI EW P,
              Encoder.init p k [a0, a1, a2, a3, a4, a5] [w0, w1, w2, w3, w4, w5]
                normalizedStr = .ok enc := ⟨_, rfl⟩
          rw [hok] at h
          exact absurd h (fun hh => Except.noConfusion hh)
        · obtain ⟨enc, hok⟩ : ∃ enc : Encoder EI EW P,
              Encoder.init p k [a0, a1, a2, a3, a4, a5] [w0, w1, w2, w3, w4, w5]
                combinatorialStr = .ok enc := ⟨_, rfl⟩
          rw [hok] at h
          exact absurd h (fun hh => Except.noConfusion hh)
      · rw [encoder_init_invalid_lt p k a0 a1 a2 a3 a4 a5 w0 w1 w2 w3 w4 w5 lt hlt] at h
        exact Or.inr (Except.error.inj h).symm
    · have herr : Encoder.init p k eil ewl lt = .error (.assertionError none) := by
        unfold Encoder.init
        rw [if_neg hcond]
      rw [herr] at h
      exact Or.inl (Except.error.inj h).symm
  · intro EI EW P p k eil ewl lt hlen h6
    obtain ⟨a0, a1, a2, a3, a4, a5, rfl⟩ := list_length_six eil (hlen.trans h6)
    obtain ⟨w0, w1, w2, w3, w4, w5, rfl⟩ := list_length_six ewl h6
    by_cases hlt : lt = normalizedStr ∨ lt = combinatorialStr
    · rcases hlt with rfl | rfl
      · obtain ⟨enc, hok⟩ : ∃ enc : Encoder EI EW P,
            Encoder.init p k [a0, a1, a2, a3, a4, a5] [w0, w1, w2, w3, w4, w5]
              normalizedStr = .ok enc := ⟨_, rfl⟩
        rw [hok]
        exact fun hh => Except.noConfusion hh
      · obtain ⟨enc, hok⟩ : ∃ enc : Encoder EI EW P,
            Encoder.init p k [a0, a1, a2, a3, a4, a5] [w0, w1, w2, w3, w4, w5]
              combinatorialStr = .ok enc := ⟨_, rfl⟩
        rw [hok]
        exact fun hh => Except.noConfusion hh
    · rw [encoder_init_invalid_lt p k a0 a1 a2 a3 a4 a5 w0 w1 w2 w3 w4 w5 lt hlt]
      intro hh
      have hinj := Except.error.inj hh
      exact absurd hinj (by simp)
  · intro EI EW P p eil ewl lt h6i h6w hlt k
    obtain ⟨a0, a1, a2, a3, a4, a5, rfl⟩ := list_length_six eil h6i
    obtain ⟨w0, w1, w2, w3, w4, w5, rfl⟩ := list_length_six ewl h6w
    rcases hlt with rfl | rfl
    · exact ⟨_, rfl⟩
    · exact ⟨_, rfl⟩

/-- C10 witness: `assert_based_validation` applied at concrete inputs — an
invalid mode string produces exactly the conv `AssertionError`, a valid
6-level configuration never trips the length assert and accepts
`kernel_size = 0`. -/
theorem assert_based_validation_witness :
    SphericalChebConv.init 16 32 3 (0 : ℕ) (none : Option ℕ) symStr
        = .error (.assertionError (some invalidNormalizationMsg)) ∧
      PyErr.assertionError (some invalidNormalizationMsg)
        = .assertionError (some invalidNormalizationMsg) ∧
      Encoder.init (fun n : Nat => n / 2) 3 ([0, 1, 2, 3, 4, 5] : List ℕ)
          ([none, none, none, none, none, none] : List (Option ℕ)) normalizedStr
        ≠ .error (.assertionError none) ∧
      ∃ enc : Encoder ℕ ℕ (Nat → Nat),
        Encoder.init (fun n => n / 2) 0 [0, 1, 2, 3, 4, 5]
          ([none, none, none, none, none, none] : List (Option ℕ)) normalizedStr = .ok enc :=
  ⟨rfl,
   assert_based_validation.1 ℕ ℕ 16 32 3 0 none symStr _ rfl,
   assert_based_validation.2.2.1 ℕ ℕ (Nat → Nat) (fun n => n / 2) 3 [0, 1, 2, 3, 4, 5]
     [none, none, none, none, none, none] normalizedStr rfl rfl,
   assert_based_validation.2.2.2 ℕ ℕ (Nat → Nat) (fun n => n / 2) [0, 1, 2, 3, 4, 5]
     [none, none, none, none, none, none] normalizedStr rfl rfl (Or.inl rfl) 0⟩

/-- C9: constructing `Encoder` with `edge_index_list` or `edge_weight_list`
of length other than 6 raises an error at construction time (the length
assert of `encoder.py` line 88); with both lists of length exactly 6 that
check passes, and with a valid `laplacian_type` construction succeeds. -/
theorem encoder_list_length_check {EI EW P : Type} (p : P) (k : Nat)
    (eil : List EI) (ewl : List (Option EW)) (lt : String) :
    (¬(eil.length = ewl.length ∧ ewl.length = 6) →
        Encoder.init p k eil ewl lt = .error (.assertionError none)) ∧
    (eil.length = 6 → ewl.length = 6 →
        (lt = normalizedStr ∨ lt = combinatorialStr) →
        ∃ enc : Encoder EI EW P, Encoder.init p k eil ewl lt = .ok enc) := by
  constructor
  · intro hcond
    unfold Encoder.init
    rw [if_neg hcond]
  · intro h6i h6w hlt
    obtain ⟨a0, a1, a2, a3, a4, a5, rfl⟩ := list_length_six eil h6i
    obtain ⟨w0, w1, w2, w3, w4, w5, rfl⟩ := list_length_six ewl h6w
    rcases hlt with rfl | rfl
    · exact ⟨_, rfl⟩
    · exact ⟨_, rfl⟩

/-- C9 witness: `encoder_list_length_check` applied at concrete inputs — a
length-1 list trips the assert, 6-element lists pass it and construction
succeeds. -/
theorem encoder_list_length_check_witness :
    Encoder.init (fun n : Nat => n / 2) 3 ([0] : List ℕ) ([none] : List (Option ℕ))
        normalizedStr = .error (.assertionError none) ∧
      ∃ enc : Encoder ℕ ℕ (Nat → Nat),
        Encoder.init (fun n => n / 2) 3 [0, 1, 2, 3, 4, 5]
          ([none, none, none, none, none, none] : List (Option ℕ)) normalizedStr = .ok enc :=
  ⟨(encoder_list_length_check (fun n : Nat => n / 2) 3 ([0] : List ℕ)
      ([none] : List (Option ℕ)) normalizedStr).1 (by decide),
   (encoder_list_length_check (fun n : Nat => n / 2) 3 ([0, 1, 2, 3, 4, 5] : List ℕ)
      ([none, none, none, none, none, none] : List (Option ℕ)) normalizedStr).2
     rfl rfl (Or.inl rfl)⟩

/-- C1: for every input of shape `[B x N5 x 16]`, `Encoder.forward` returns
exactly the 5-tuple `(x0, x1, x2, x3, x4)` of the outputs of the stages at
levels 0 through 4 — the level-5 stage's output is consumed by the level-4
stage but omitted from the tuple — where the stages transform channel widths
16→32→64 (level 5, the double conv block), 64→128 (level 4), 128→256
(level 3), 256→512 (level 2), 512→512 (level 1) and 512→512 (level 0), each
stage consuming the previous stage's output in sequence from level 5 down to
level 0. -/
theorem encoder_forward_levels {EI EW : Type} (p : Nat → Nat) (k : Nat)
    (a0 a1 a2 a3 a4 a5 : EI) (w0 w1 w2 w3 w4 w5 : Option EW) (lt : String)
    (hlt : lt = normalizedStr ∨ lt = combinatorialStr) :
    ∃ enc : Encoder EI EW (Nat → Nat),
      Encoder.init p k [a0, a1, a2, a3, a4, a5] [w0, w1, w2, w3, w4, w5] lt = .ok enc ∧
      (enc.enc_l5.spherical_cheb_bn_1.spherical_cheb.chebconv.in_channels = 16 ∧
        enc.enc_l5.spherical_cheb_bn_1.spherical_cheb.chebconv.out_channels = 32 ∧
        enc.enc_l5.spherical_cheb_bn_2.spherical_cheb.chebconv.in_channels = 32 ∧
        enc.enc_l5.spherical_cheb_bn_2.spherical_cheb.chebconv.out_channels = 64 ∧
        enc.enc_l4.spherical_cheb_bn.spherical_cheb.chebconv.in_channels = 64 ∧
        enc.enc_l4.spherical_cheb_bn.spherical_cheb.chebconv.out_channels = 128 ∧
        enc.enc_l3.spherical_cheb_bn.spherical_cheb.chebconv.in_channels = 128 ∧
        enc.enc_l3.spherical_cheb_bn.spherical_cheb.chebconv.out_channels = 256 ∧
        enc.enc_l2.spherical_cheb_bn.spherical_cheb.chebconv.in_channels = 256 ∧
        enc.enc_l2.spherical_cheb_bn.spherical_cheb.chebconv.out_channels = 512 ∧
        enc.enc_l1.spherical_cheb_bn.spherical_cheb.chebconv.in_channels = 512 ∧
        enc.enc_l1.spherical_cheb_bn.spherical_cheb.chebconv.out_channels = 512 ∧
        enc.enc_l0.spherical_cheb.chebconv.in_channels = 512 ∧
        enc.enc_l0.spherical_cheb.chebconv.out_channels = 512) ∧
      ∀ B N : Nat, ∃ x5 x4 x3 x2 x1 x0 : Shape3,
        enc.enc_l5.shapeForward ⟨B, N, 16⟩ = some x5 ∧
        enc.enc_l4.shapeForward x5 = some x4 ∧
        enc.enc_l3.shapeForward x4 = some x3 ∧
        enc.enc_l2.shapeForward x3 = some x2 ∧
        enc.enc_l1.shapeForward x2 = some x1 ∧
        enc.enc_l0.shapeForward x1 = some x0 ∧
        enc.forwardShape ⟨B, N, 16⟩ = some (x0, x1, x2, x3, x4) := by
  rcases hlt with rfl | rfl
  · exact ⟨_, rfl,
      ⟨rfl, rfl, rfl, rfl, rfl, rfl, rfl, rfl, rfl, rfl, rfl, rfl, rfl, rfl⟩,
      fun B N => ⟨_, _, _, _, _, _, rfl, rfl, rfl, rfl, rfl, rfl, rfl⟩⟩
  · exact ⟨_, rfl,
      ⟨rfl, rfl, rfl, rfl, rfl, rfl, rfl, rfl, rfl, rfl, rfl, rfl, rfl, rfl⟩,
      fun B N => ⟨_, _, _, _, _, _, rfl, rfl, rfl, rfl, rfl, rfl, rfl⟩⟩

/-- C1 witness: `encoder_forward_levels` applied at concrete inputs. -/
theorem encoder_forward_levels_witness :
    ∃ enc : Encoder ℕ ℕ (Nat → Nat),
      Encoder.init (fun n => n / 2) 3 [0, 1, 2, 3, 4, 5]
        ([none, none, none, none, none, none] : List (Option ℕ)) normalizedStr = .ok enc :=
  (encoder_forward_levels (fun n => n / 2) 3 0 1 2 3 4 5 none none none none none none
    normalizedStr (Or.inl rfl)).imp fun enc h => h.1

/-- C2 counterexample: on a concrete valid configuration (half pooling,
input `[1 x 64 x 16]`) the five returned shapes have channel widths
`(512, 512, 512, 256, 128)` — the level-2 tensor has 512 channels, so the
claimed width list `[512, 512, 256, 128, 64]` for levels `[0,1,2,3,4]` is
false on the code. -/
theorem encoder_pyramid_widths_cex :
    ∃ enc : Encoder ℕ ℕ (Nat → Nat),
      Encoder.init (fun n => n / 2) 3 [0, 1, 2, 3, 4, 5]
        ([none, none, none, none, none, none] : List (Option ℕ)) normalizedStr = .ok enc ∧
      enc.forwardShape ⟨1, 64, 16⟩ =
        some (⟨1, 2, 512⟩, ⟨1, 4, 512⟩, ⟨1, 8, 512⟩, ⟨1, 16, 256⟩, ⟨1, 32, 128⟩) ∧
      ¬∃ t0 t1 t2 t3 t4 : Shape3,
          enc.forwardShape ⟨1, 64, 16⟩ = some (t0, t1, t2, t3, t4) ∧
          t0.channels = 512 ∧ t1.channels = 512 ∧ t2.channels = 256 ∧
          t3.channels = 128 ∧ t4.channels = 64 := by
  refine ⟨_, rfl, rfl, ?_⟩
  rintro ⟨t0, t1, t2, t3, t4, heq, -, -, h2, -, -⟩
  have h' : (some ((⟨1, 2, 512⟩ : Shape3), (⟨1, 4, 512⟩ : Shape3), (⟨1, 8, 512⟩ : Shape3),
      (⟨1, 16, 256⟩ : Shape3), (⟨1, 32, 128⟩ : Shape3))) = some (t0, t1, t2, t3, t4) := heq
  injection h' with h''
  cases h''
  exact absurd h2 (by decide)

/-- C2 (amended): for every valid input `[B x N5 x 16]` with `B ≥ 1`, over a
pooling operator that is monotone and strictly shrinks nonempty meshes and a
mesh hierarchy deep enough that the coarsest stage is nonempty,
`Encoder.forward` produces exactly 5 tensors whose node counts strictly
decrease (first element coarsest) and whose channel widths are exactly
`[512, 512, 512, 256, 128]` for levels `[0, 1, 2, 3, 4]`. -/
theorem encoder_pyramid_shapes {EI EW : Type} (p : Nat → Nat) (k B N : Nat)
    (a0 a1 a2 a3 a4 a5 : EI) (w0 w1 w2 w3 w4 w5 : Option EW) (lt : String)
    (hlt : lt = normalizedStr ∨ lt = combinatorialStr) (hB : 1 ≤ B)
    (hmono : ∀ m n : Nat, m ≤ n → p m ≤ p n)
    (hdec : ∀ n : Nat, 0 < n → p n < n)
    (hbot : 0 < p (p (p (p (p N))))) :
    ∃ enc : Encoder EI EW (Nat → Nat),
      Encoder.init p k [a0, a1, a2, a3, a4, a5] [w0, w1, w2, w3, w4, w5] lt = .ok enc ∧
      ∃ t0 t1 t2 t3 t4 : Shape3,
        enc.forwardShape ⟨B, N, 16⟩ = some (t0, t1, t2, t3, t4) ∧
        t0.channels = 512 ∧ t1.channels = 512 ∧ t2.channels = 512 ∧
        t3.channels = 256 ∧ t4.channels = 128 ∧
        t0.nodes < t1.nodes ∧ t1.nodes < t2.nodes ∧
        t2.nodes < t3.nodes ∧ t3.nodes < t4.nodes := by
  have hp1 : p 1 = 0 := Nat.lt_one_iff.mp (hdec 1 one_pos)
  have hp0 : p 0 = 0 :=
    Nat.le_antisymm (hp1 ▸ hmono 0 1 (Nat.zero_le 1)) (Nat.zero_le _)
  have h4 : 0 < p (p (p (p N))) := by
    rcases Nat.eq_zero_or_pos (p (p (p (p N)))) with h | h
    · rw [h, hp0] at hbot
      exact absurd hbot (lt_irrefl 0)
    · exact h
  have h3 : 0 < p (p (p N)) := by
    rcases Nat.eq_zero_or_pos (p (p (p N))) with h | h
    · rw [h, hp0] at h4
      exact absurd h4 (lt_irrefl 0)
    · exact h
  have h2 : 0 < p (p N) := by
    rcases Nat.eq_zero_or_pos (p (p N)) with h | h
    · rw [h, hp0] at h3
      exact absurd h3 (lt_irrefl 0)
    · exact h
  have h1 : 0 < p N := by
    rcases Nat.eq_zero_or_pos (p N) with h | h
    · rw [h, hp0] at h2
      exact absurd h2 (lt_irrefl 0)
    · exact h
  rcases hlt with rfl | rfl
  · exact ⟨_, rfl, _, _, _, _, _, rfl, rfl, rfl, rfl, rfl, rfl,
      hdec _ h4, hdec _ h3, hdec _ h2, hdec _ h1⟩
  · exact ⟨_, rfl, _, _, _, _, _, rfl, rfl, rfl, rfl, rfl, rfl,
      hdec _ h4, hdec _ h3, hdec _ h2, hdec _ h1⟩

/-- C2 witness: `encoder_pyramid_shapes` applied with halving pooling and a
64-node finest mesh. -/
theorem encoder_pyramid_shapes_witness :
    ∃ enc : Encoder ℕ ℕ (Nat → Nat),
      Encoder.init (fun n => n / 2) 2 [0, 1, 2, 3, 4, 5]
        ([none, none, none, none, none, none] : List (Option ℕ)) normalizedStr = .ok enc :=
  (encoder_pyramid_shapes (fun n => n / 2) 2 1 64 0 1 2 3 4 5 none none none none none none
      normalizedStr (Or.inl rfl) (le_refl 1)
      (fun m n h => Nat.div_le_div_right h)
      (fun n h => Nat.div_lt_self h one_lt_two)
      (by decide)).imp
    fun enc h => h.1

/-- C3 counterexample: the replacement first stage of `EncoderTemporalConv`
stores the graph data of list index 5 (`edge_index_list[-1]`, the
finest-level entry, here `15`), not the coarsest-level entry of index 0
(here `10`) — refuting the claim that it uses the coarsest-level graph
structure. -/
theorem temporal_first_stage_graph_cex :
    ∃ etc : EncoderTemporalConv ℕ ℕ (Nat → Nat),
      EncoderTemporalConv.init (fun n => n / 2) 2 3 [10, 11, 12, 13, 14, 15]
        ([none, none, none, none, none, none] : List (Option ℕ)) normalizedStr = .ok etc ∧
      etc.enc_l5.spherical_cheb_bn_1.spherical_cheb.edge_index = 15 ∧
      ¬etc.enc_l5.spherical_cheb_bn_1.spherical_cheb.edge_index = 10 :=
  ⟨_, rfl, rfl, by decide⟩

/-- C3 (amended): `EncoderTemporalConv`'s replacement first stage uses the
same finest-level (level-5) graph structure as plain `Encoder`'s first stage
— `edge_index_list[-1]` is the last element of the 6-element list, i.e.
index 5 — while the coarsest-level (level-0) graph is used by the terminal
stage `enc_l0`, exactly as in the plain `Encoder`. -/
theorem temporal_first_stage_graph {EI EW P : Type} (p : P) (T k : Nat)
    (a0 a1 a2 a3 a4 a5 : EI) (w0 w1 w2 w3 w4 w5 : Option EW) (lt : String)
    (hlt : lt = normalizedStr ∨ lt = combinatorialStr) :
    ∃ (etc : EncoderTemporalConv EI EW P) (base : Encoder EI EW P),
      EncoderTemporalConv.init p T k [a0, a1, a2, a3, a4, a5]
        [w0, w1, w2, w3, w4, w5] lt = .ok etc ∧
      Encoder.init p k [a0, a1, a2, a3, a4, a5] [w0, w1, w2, w3, w4, w5] lt = .ok base ∧
      etc.enc_l5.spherical_cheb_bn_1.spherical_cheb.edge_index = a5 ∧
      etc.enc_l5.spherical_cheb_bn_2.spherical_cheb.edge_index = a5 ∧
      etc.enc_l5.spherical_cheb_bn_1.spherical_cheb.edge_weight = w5 ∧
      base.enc_l5.spherical_cheb_bn_1.spherical_cheb.edge_index = a5 ∧
      etc.enc_l0.spherical_cheb.edge_index = a0 := by
  rcases hlt with rfl | rfl
  · exact ⟨_, _, rfl, rfl, rfl, rfl, rfl, rfl, rfl⟩
  · exact ⟨_, _, rfl, rfl, rfl, rfl, rfl, rfl, rfl⟩

/-- C3 witness: `temporal_first_stage_graph` applied at concrete inputs. -/
theorem temporal_first_stage_graph_witness :
    ∃ etc : EncoderTemporalConv ℕ ℕ (Nat → Nat),
      EncoderTemporalConv.init (fun n : Nat => n / 2) 2 3 [10, 11, 12, 13, 14, 15]
          ([none, none, none, none, none, none] : List (Option ℕ)) combinatorialStr = .ok etc ∧
        etc.enc_l5.spherical_cheb_bn_1.spherical_cheb.edge_index = 15 :=
  (temporal_first_stage_graph (fun n : Nat => n / 2) 2 3 10 11 12 13 14 15
      (none : Option ℕ) none none none none none combinatorialStr (Or.inr rfl)).imp
    fun etc h => h.elim fun base hh => ⟨hh.1, hh.2.2.1⟩

/-- C4 counterexample: with sequence length `T = 2` the replacement first
stage's middle channel width (the output width of its first sub-block) is
`16 * 2 = 32`, not the claimed `32 * 2 = 64`: the code multiplies the plain
first stage's input width by `T` for both the input and the middle width. -/
theorem temporal_channel_widths_cex :
    ∃ etc : EncoderTemporalConv ℕ ℕ (Nat → Nat),
      EncoderTemporalConv.init (fun n => n / 2) 2 3 [0, 1, 2, 3, 4, 5]
        ([none, none, none, none, none, none] : List (Option ℕ)) normalizedStr = .ok etc ∧
      etc.sequence_length = 2 ∧
      etc.enc_l5.spherical_cheb_bn_1.spherical_cheb.chebconv.out_channels = 16 * 2 ∧
      ¬etc.enc_l5.spherical_cheb_bn_1.spherical_cheb.chebconv.out_channels = 32 * 2 :=
  ⟨_, rfl, rfl, rfl, by decide⟩

/-- C4 (amended): `EncoderTemporalConv` with sequence length `T` has a first
stage whose input and middle channel widths are both the plain `Encoder`'s
first-stage input width (16) multiplied by `T`, with output width unchanged
at 64; all other stages (levels 4 down to 0) are configured identically to
the plain `Encoder`'s. -/
theorem temporal_channel_widths {EI EW P : Type} (p : P) (T k : Nat)
    (a0 a1 a2 a3 a4 a5 : EI) (w0 w1 w2 w3 w4 w5 : Option EW) (lt : String)
    (hlt : lt = normalizedStr ∨ lt = combinatorialStr) :
    ∃ (etc : EncoderTemporalConv EI EW P) (base : Encoder EI EW P),
      EncoderTemporalConv.init p T k [a0, a1, a2, a3, a4, a5]
        [w0, w1, w2, w3, w4, w5] lt = .ok etc ∧
      Encoder.init p k [a0, a1, a2, a3, a4, a5] [w0, w1, w2, w3, w4, w5] lt = .ok base ∧
      etc.enc_l5.in_channels = 16 * T ∧
      etc.enc_l5.spherical_cheb_bn_1.spherical_cheb.chebconv.in_channels = 16 * T ∧
      etc.enc_l5.spherical_cheb_bn_1.spherical_cheb.chebconv.out_channels = 16 * T ∧
      etc.enc_l5.spherical_cheb_bn_2.spherical_cheb.chebconv.in_channels = 16 * T ∧
      etc.enc_l5.spherical_cheb_bn_2.spherical_cheb.chebconv.out_channels = 64 ∧
      etc.enc_l5.out_channels = 64 ∧
      etc.enc_l4 = base.enc_l4 ∧ etc.enc_l3 = base.enc_l3 ∧
      etc.enc_l2 = base.enc_l2 ∧ etc.enc_l1 = base.enc_l1 ∧
      etc.enc_l0 = base.enc_l0 ∧
      etc.pooling = base.pooling ∧ etc.kernel_size = base.kernel_size := by
  rcases hlt with rfl | rfl
  · exact ⟨_, _, rfl, rfl, rfl, rfl, rfl, rfl, rfl, rfl, rfl, rfl, rfl, rfl, rfl, rfl, rfl⟩
  · exact ⟨_, _, rfl, rfl, rfl, rfl, rfl, rfl, rfl, rfl, rfl, rfl, rfl, rfl, rfl, rfl, rfl⟩

/-- C4 witness: `temporal_channel_widths` applied at concrete inputs. -/
theorem temporal_channel_widths_witness :
    ∃ etc : EncoderTemporalConv ℕ ℕ (Nat → Nat),
      EncoderTemporalConv.init (fun n : Nat => n / 2) 3 2 [0, 1, 2, 3, 4, 5]
          ([none, none, none, none, none, none] : List (Option ℕ)) normalizedStr = .ok etc ∧
        etc.enc_l5.in_channels = 16 * 3 :=
  (temporal_channel_widths (fun n : Nat => n / 2) 3 2 0 1 2 3 4 5
      (none : Option ℕ) none none none none none normalizedStr (Or.inl rfl)).imp
    fun etc h => h.elim fun base hh => ⟨hh.1, hh.2.2.1⟩

/-- C6: for every input, the conv block (`SphericalChebBN`) applies the graph
convolution first, then normalizes each channel's activations jointly across
the collapsed batch-and-node dimension (the batch-norm input has
`batch * nodes` rows) with no learnable affine rescale (`affine = false`),
then applies ReLU elementwise, restoring the `[batch x nodes x out_channels]`
shape; consequently every entry of the output is non-negative.  The external
Chebyshev convolution semantics is assumed only to respect its shape
contract. -/
theorem convblock_conv_bn_relu {EI EW : Type} (sem : ChebSem EI EW) (rsqrt : ℚ → ℚ)
    (ic oc k : Nat) (ei : EI) (ew : Option EW) (lt : String)
    (m : SphericalChebBN EI EW) (x y : T3)
    (hm : SphericalChebBN.init ic oc k ei ew lt = .ok m)
    (hsem : ∀ (cfg : ChebConvCfg) (eidx : EI) (ewt : Option EW) (lm : ℚ) (t u : T3),
      sem cfg eidx ewt lm t = some u →
        u.batch = t.batch ∧ u.nodes = t.nodes ∧ u.channels = cfg.out_channels)
    (hy : m.forward sem rsqrt x = some y) :
    (∀ v ∈ y.data, 0 ≤ v) ∧
      m.batchnorm.affine = false ∧
      m.batchnorm.num_features = oc ∧
      y.batch = x.batch ∧ y.nodes = x.nodes ∧ y.channels = oc ∧
      ∃ x1 bn, m.spherical_cheb.forward sem x = some x1 ∧
        m.batchnorm.forward rsqrt ⟨x1.batch * x1.nodes, x1.channels, x1.data⟩ = some bn ∧
        y = ⟨x1.batch, x1.nodes, x1.channels, bn.data.map relu⟩ := by
  unfold SphericalChebBN.init at hm
  cases hc : SphericalChebConv.init ic oc k ei ew lt with
  | error e =>
    rw [hc, exceptBind_error] at hm
    exact absurd hm (fun hh => Except.noConfusion hh)
  | ok c =>
    rw [hc, exceptBind_ok] at hm
    have hm' := Except.ok.inj hm
    subst hm'
    have hcc := SphericalChebConv.init_ok hc
    subst hcc
    unfold SphericalChebBN.forward at hy
    cases hx1 : SphericalChebConv.forward sem
        ⟨ei, ew, 2, ⟨ic, oc, k, if lt = normalizedStr then some symStr else none⟩⟩ x with
    | none =>
      rw [hx1, optionBind_none] at hy
      exact absurd hy (fun hh => Option.noConfusion hh)
    | some x1 =>
      rw [hx1, optionBind_some] at hy
      cases hbn : BatchNorm1dCfg.forward ⟨oc, 1 / 100000, false⟩ rsqrt
          ⟨x1.batch * x1.nodes, x1.channels, x1.data⟩ with
      | none =>
        rw [hbn, optionBind_none] at hy
        exact absurd hy (fun hh => Option.noConfusion hh)
      | some bn =>
        rw [hbn, optionBind_some] at hy
        have hy' := Option.some.inj hy
        subst hy'
        obtain ⟨hb, hn, hch⟩ := hsem _ _ _ _ x x1 hx1
        refine ⟨?_, rfl, rfl, hb, hn, hch, x1, bn, rfl, hbn, rfl⟩
        intro v hv
        rcases List.mem_map.1 hv with ⟨u, hu, rfl⟩
        exact le_max_left 0 u

/-- C6 witness: `convblock_conv_bn_relu` applied to a concrete block and
input.  The conv semantics is the identity on data (with the contractual
output channel width); on input data `[1, -3]` the batch statistics are mean
`-1` and biased variance `4`, the chosen `rsqrt` returns `1`, so the
normalized data is `[2, -2]` and the ReLU output `[2, 0]`, which is entrywise
non-negative. -/
theorem convblock_conv_bn_relu_witness :
    SphericalChebBN.init 1 1 1 (0 : ℕ) (none : Option ℕ) normalizedStr
        = .ok ⟨⟨0, none, 2, ⟨1, 1, 1, some symStr⟩⟩, ⟨1, 1 / 100000, false⟩⟩ ∧
      SphericalChebBN.forward
          (fun cfg _ _ _ t => some ⟨t.batch, t.nodes, cfg.out_channels, t.data⟩)
          (fun _ => 1)
          (⟨⟨0, none, 2, ⟨1, 1, 1, some symStr⟩⟩, ⟨1, 1 / 100000, false⟩⟩ : SphericalChebBN ℕ ℕ)
          ⟨1, 2, 1, [1, -3]⟩ = some ⟨1, 2, 1, [2, 0]⟩ ∧
      ∀ v ∈ ([2, 0] : List ℚ), 0 ≤ v := by
  have hm : SphericalChebBN.init 1 1 1 (0 : ℕ) (none : Option ℕ) normalizedStr
      = .ok ⟨⟨0, none, 2, ⟨1, 1, 1, some symStr⟩⟩, ⟨1, 1 / 100000, false⟩⟩ := rfl
  have hy : SphericalChebBN.forward
      (fun cfg _ _ _ t => some ⟨t.batch, t.nodes, cfg.out_channels, t.data⟩)
      (fun _ => 1)
      (⟨⟨0, none, 2, ⟨1, 1, 1, some symStr⟩⟩, ⟨1, 1 / 100000, false⟩⟩ : SphericalChebBN ℕ ℕ)
      ⟨1, 2, 1, [1, -3]⟩ = some ⟨1, 2, 1, [2, 0]⟩ := by
    simp only [SphericalChebBN.forward, SphericalChebConv.forward, BatchNorm1dCfg.forward,
      column, List.enum, List.enumFrom, optionBind_some, optionBind_none]
    norm_num [relu]
  refine ⟨hm, hy, ?_⟩
  exact (convblock_conv_bn_relu
    (fun cfg _ _ _ t => some ⟨t.batch, t.nodes, cfg.out_channels, t.data⟩)
    (fun _ => 1) 1 1 1 (0 : ℕ) (none : Option ℕ) normalizedStr
    ⟨⟨0, none, 2, ⟨1, 1, 1, some symStr⟩⟩, ⟨1, 1 / 100000, false⟩⟩
    ⟨1, 2, 1, [1, -3]⟩ ⟨1, 2, 1, [2, 0]⟩ hm
    (fun cfg eidx ewt lm t u h => by cases h; exact ⟨rfl, rfl, rfl⟩) hy).1

/-- C7: in both encoder pooled blocks the order is pool-then-convolve:
`SphericalChebBNPool.forward` applies the pooling operator and then the conv
block, and `SphericalChebPool.forward` applies the pooling operator and then
the bare graph convolution with no normalization or activation step — in
particular a negative convolution output passes through `SphericalChebPool`
unchanged, which the normalization-plus-ReLU block can never emit. -/
theorem pool_then_conv_order {EI EW : Type} (sem : ChebSem EI EW) (rsqrt : ℚ → ℚ)
    (mbn : SphericalChebBNPool EI EW (T3 → T3)) (mp : SphericalChebPool EI EW (T3 → T3))
    (x : T3) :
    mbn.forward sem rsqrt x = mbn.spherical_cheb_bn.forward sem rsqrt (mbn.pooling x) ∧
      mp.forward sem x = mp.spherical_cheb.forward sem (mp.pooling x) ∧
      ∃ (mneg : SphericalChebPool ℕ ℕ (T3 → T3)) (semneg : ChebSem ℕ ℕ) (xneg yneg : T3),
        SphericalChebPool.init 512 512 (fun t => t) 3 (0 : ℕ) (none : Option ℕ)
          normalizedStr = .ok mneg ∧
        mneg.forward semneg xneg = some yneg ∧ ∃ v ∈ yneg.data, v < 0 := by
  refine ⟨rfl, rfl,
    ⟨fun t => t, ⟨0, none, 2, ⟨512, 512, 3, some symStr⟩⟩⟩,
    fun _ _ _ _ _ => some ⟨1, 1, 1, [-1]⟩,
    ⟨1, 1, 1, [0]⟩, ⟨1, 1, 1, [-1]⟩, rfl, rfl, -1, ?_, ?_⟩
  · simp
  · norm_num

end DeepSphere
